import Mathlib

/-
Shallow embedding of scripts/altstore_converter.py.

The program converts app-catalog JSON documents between two schema dialects
and optionally enriches records with permissions extracted from a downloaded
archive.  JSON documents are modelled by the inductive type Json below;
Python dictionaries are association lists that keep insertion order, exactly
as Python dicts do.  Network and subprocess effects are modelled by explicit
outcome parameters: the archive fetch is a FetchResult value, the two
external tools (codesign, security) are Option-valued key lists inside
IpaArchive, and the current clock reading is a string parameter.

Python string primitives used by the source (lower, in, split, strip,
re.sub) are re-implemented over lists of characters so that every
definition is executable by the kernel.  They agree with the Python
primitives on ASCII data; universal theorems about name sanitisation are
stated with an ASCII hypothesis where the distinction could matter.
-/

/-- JSON values.  Numbers are modelled as integers: the only numeric field
the converter touches is the byte size, which the inputs carry as an
integer. -/
inductive Json where
  | null : Json
  | bool (b : Bool) : Json
  | num (n : Int) : Json
  | str (s : String) : Json
  | arr (elems : List Json) : Json
  | obj (fields : List (String × Json)) : Json

/-- Python truthiness of a JSON value: None, False, 0, empty string, empty
list and empty dict are falsy, everything else is truthy. -/
def truthy : Json → Bool
  | Json.null => false
  | Json.bool b => b
  | Json.num n => n != 0
  | Json.str s => s != ""
  | Json.arr l => !l.isEmpty
  | Json.obj l => !l.isEmpty

/-- Models the Python dict assignment d[k] = v: the first pair with key k is
replaced in place, otherwise the pair is appended at the end (Python dicts
keep insertion order). -/
def setKey (d : List (String × Json)) (k : String) (v : Json) : List (String × Json) :=
  match d with
  | [] => [(k, v)]
  | (k2, v2) :: rest => if k2 == k then (k, v) :: rest else (k2, v2) :: setKey rest k v

/-- Models the membership test k in d on a Python dict. -/
def hasKey (d : List (String × Json)) (k : String) : Bool :=
  (List.lookup k d).isSome

/-- Models d.get(k, default) on a Python dict. -/
def getD (d : List (String × Json)) (k : String) (default : Json) : Json :=
  (List.lookup k d).getD default

/-- Models d.get(k, default) for a field the source immediately uses as a
string (name, iconURL, versionDate).  When the field is present with a
non-string value the Python program raises a TypeError further down; the
claims range over schema-conforming records, recorded by the wfApp
predicate below, on which this total function agrees with the source. -/
def getStrD (d : List (String × Json)) (k : String) (default : String) : String :=
  match List.lookup k d with
  | some (Json.str s) => s
  | some _ => default
  | none => default

/-- Truthiness of the value stored at key k (missing keys behave like
None, exactly as d.get(k) does). -/
def truthyKey (d : List (String × Json)) (k : String) : Bool :=
  truthy (getD d k Json.null)

/- Character-level string primitives, agreeing with the Python ones on
ASCII data. -/

/-- Models s.lower(): Char.toLower maps exactly the ASCII range A-Z. -/
def lowerStr (s : String) : String :=
  String.mk (s.data.map Char.toLower)

/-- Decides whether the character list s starts with the character list p. -/
def startsWithL : List Char → List Char → Bool
  | _, [] => true
  | [], _ :: _ => false
  | a :: as, b :: bs => a == b && startsWithL as bs

/-- Decides whether p occurs as a contiguous substring of s; models the
Python expression p in s on strings. -/
def hasSubstrL : List Char → List Char → Bool
  | [], p => p.isEmpty
  | c :: rest, p => startsWithL (c :: rest) p || hasSubstrL rest p

/-- Models the Python expression pat in s for strings. -/
def strContains (s pat : String) : Bool :=
  hasSubstrL s.data pat.data

/-- Prefix of s that precedes the first occurrence of sep; the whole of s
when sep does not occur.  Models s.split(sep)[0] for a non-empty sep. -/
def splitFirstL (sep : List Char) : List Char → List Char
  | [] => []
  | c :: rest =>
      if startsWithL (c :: rest) sep then [] else c :: splitFirstL sep rest

/-- Models s.split(sep)[0] for a non-empty separator. -/
def splitHead (s sep : String) : String :=
  String.mk (splitFirstL sep.data s.data)

/-- ASCII whitespace, as stripped by str.strip(). -/
def isSpaceChar (c : Char) : Bool :=
  c == ' ' || c == '\t' || c == '\n' || c == '\r' || c == Char.ofNat 11 || c == Char.ofNat 12

/-- Models the truthiness of s.strip(): true when some character of s is
not whitespace. -/
def stripTruthy (s : String) : Bool :=
  s.data.any (fun c => !isSpaceChar c)

/-- Models the character class of re.sub applied in
generate_screenshot_urls: characters matching [\w\-_.] are kept (with \w
read over ASCII as letters, digits and the underscore), every other
character is replaced by an underscore. -/
def safeChar (c : Char) : Char :=
  if c.isAlphanum || c == '_' || c == '-' || c == '.' then c else '_'

/-- Result of re.sub applied to the app name in
generate_screenshot_urls. -/
def sanitizeName (s : String) : String :=
  String.mk (s.data.map safeChar)

/- The static permission dictionaries of AltStoreConverter.__init__. -/

/-- The permission_mappings dict: privacy usage-description keys of the
bundle manifest, with their fallback labels. -/
def permission_mappings : List (String × String) :=
  [("NSCameraUsageDescription", "Camera access"),
   ("NSMicrophoneUsageDescription", "Microphone access"),
   ("NSPhotoLibraryUsageDescription", "Photo Library access"),
   ("NSPhotoLibraryAddUsageDescription", "Photo Library write access"),
   ("NSLocationWhenInUseUsageDescription", "Location access when in use"),
   ("NSLocationAlwaysAndWhenInUseUsageDescription", "Location access always"),
   ("NSContactsUsageDescription", "Contacts access"),
   ("NSCalendarsUsageDescription", "Calendar access"),
   ("NSRemindersUsageDescription", "Reminders access"),
   ("NSMotionUsageDescription", "Motion and fitness access"),
   ("NSHealthUpdateUsageDescription", "Health data write access"),
   ("NSHealthShareUsageDescription", "Health data read access"),
   ("NSBluetoothAlwaysUsageDescription", "Bluetooth access"),
   ("NSBluetoothPeripheralUsageDescription", "Bluetooth peripheral access"),
   ("NSLocalNetworkUsageDescription", "Local network access"),
   ("NSSpeechRecognitionUsageDescription", "Speech recognition access"),
   ("NSFaceIDUsageDescription", "Face ID access"),
   ("NSAppleMusicUsageDescription", "Apple Music access"),
   ("NSMediaLibraryUsageDescription", "Media library access"),
   ("NSNearbyInteractionUsageDescription", "Nearby interaction access")]

/-- The entitlement_mappings dict, in source order.  The source literal
repeats three keys (appattest-environment, extended-virtual-addressing,
increased-memory-limit) with identical values; as a Python dict the later
entry overwrites the earlier one, which leaves membership unchanged, so the
duplicates are kept here verbatim. -/
def entitlement_mappings : List (String × String) :=
  [("com.apple.security.application-groups", "Application groups"),
   ("com.apple.developer.siri", "Siri integration"),
   ("com.apple.developer.healthkit", "HealthKit access"),
   ("com.apple.developer.game-center", "Game Center"),
   ("com.apple.developer.networking.networkextension", "Network extensions"),
   ("com.apple.developer.networking.vpn.api", "VPN configuration"),
   ("com.apple.developer.devicecheck.appattest-environment", "App Attest"),
   ("com.apple.external-accessory.wireless-configuration", "Wireless accessory configuration"),
   ("com.apple.developer.networking.wifi-info", "WiFi information access"),
   ("com.apple.developer.networking.multipath", "Multipath networking"),
   ("com.apple.developer.associated-domains", "Associated domains"),
   ("com.apple.developer.default-data-protection", "Data protection"),
   ("com.apple.developer.kernel.increased-memory-limit", "Increased memory limit"),
   ("com.apple.developer.kernel.extended-virtual-addressing", "Extended virtual addressing"),
   ("keychain-access-groups", "Keychain access groups"),
   ("com.apple.developer.team-identifier", "Team identifier"),
   ("get-task-allow", "Debuggable (get-task-allow)"),
   ("com.apple.security.get-task-allow", "Debuggable (security variant)"),
   ("com.apple.developer.icloud-container-identifiers", "iCloud containers"),
   ("com.apple.developer.icloud-services", "iCloud services"),
   ("com.apple.developer.ubiquity-kvstore-identifier", "iCloud key-value storage"),
   ("com.apple.developer.ubiquity-container-identifiers", "iCloud document containers"),
   ("com.apple.developer.networking.HotspotConfiguration", "Hotspot configuration"),
   ("com.apple.developer.networking.slicing", "Network slicing"),
   ("com.apple.developer.networking.custom-protocol", "Custom network protocols"),
   ("com.apple.developer.networking.bluetooth", "Bluetooth networking"),
   ("com.apple.developer.coremedia.hls.low-latency", "Low-latency HLS"),
   ("com.apple.developer.avfoundation.multitasking-camera-access", "Background camera access"),
   ("com.apple.developer.media-device-discovery-extension", "Media device discovery"),
   ("com.apple.developer.carplay-audio", "CarPlay audio"),
   ("com.apple.developer.carplay-communication", "CarPlay communication"),
   ("com.apple.developer.carplay-messaging", "CarPlay messaging"),
   ("com.apple.developer.carplay-navigation", "CarPlay navigation"),
   ("com.apple.developer.carplay-parking", "CarPlay parking"),
   ("com.apple.developer.carplay-quick-ordering", "CarPlay quick ordering"),
   ("com.apple.developer.carplay-charging", "CarPlay EV charging"),
   ("com.apple.developer.carplay-driving-task", "CarPlay driving task"),
   ("com.apple.developer.usernotifications.communication", "Communication notifications"),
   ("com.apple.developer.usernotifications.critical-alerts", "Critical alert notifications"),
   ("com.apple.developer.usernotifications.time-sensitive", "Time sensitive notifications"),
   ("aps-environment", "Push notifications environment"),
   ("com.apple.developer.background-processing", "Background processing"),
   ("com.apple.developer.background-modes", "Background modes"),
   ("com.apple.security.exception.files.absolute-path.read-only", "Absolute path file read access"),
   ("com.apple.security.exception.files.absolute-path.read-write", "Absolute path file write access"),
   ("com.apple.security.exception.files.home-relative-path.read-only", "Home relative file read access"),
   ("com.apple.security.exception.files.home-relative-path.read-write", "Home relative file write access"),
   ("com.apple.security.exception.mach-lookup.global-name", "Mach service lookup"),
   ("com.apple.security.exception.shared-preference.read-only", "Shared preference read access"),
   ("com.apple.security.exception.shared-preference.read-write", "Shared preference write access"),
   ("com.apple.security.temporary-exception.files.absolute-path.read-only", "Temporary file read access"),
   ("com.apple.security.temporary-exception.files.absolute-path.read-write", "Temporary file write access"),
   ("com.apple.developer.nfc.readersession.formats", "NFC reader session"),
   ("com.apple.developer.nfc.readersession.iso7816.select-identifiers", "NFC ISO7816 identifiers"),
   ("com.apple.developer.proximity-reader.payment.acceptance", "Tap to Pay acceptance"),
   ("com.apple.developer.in-app-payments", "In-app payments"),
   ("com.apple.developer.storekit.external-purchase-link", "External purchase links"),
   ("com.apple.developer.weatherkit", "WeatherKit access"),
   ("com.apple.developer.shared-with-you", "Shared with You"),
   ("com.apple.developer.devicecheck.appattest-environment", "App Attest environment"),
   ("com.apple.developer.applesignin", "Sign in with Apple"),
   ("com.apple.developer.group-session", "SharePlay group sessions"),
   ("com.apple.developer.ClassKit-environment", "ClassKit environment"),
   ("com.apple.developer.maps", "MapKit"),
   ("com.apple.developer.web-browser-engine.webcontent", "Web browser engine"),
   ("com.apple.developer.web-browser-engine.networking", "Web browser networking"),
   ("com.apple.developer.web-browser-engine.rendering", "Web browser rendering"),
   ("com.apple.private.security.no-container", "No container restriction"),
   ("com.apple.private.security.storage.AppDataContainers", "App data container access"),
   ("com.apple.runningboard.primitiveattribute", "RunningBoard primitive attributes"),
   ("com.apple.frontboard.launchapplications", "Launch applications"),
   ("inter-app-audio", "Inter-App Audio"),
   ("application-identifier", "Application identifier"),
   ("beta-reports-active", "Beta reporting"),
   ("platform-application", "Platform application"),
   ("com.apple.private.skip-library-validation", "Skip library validation"),
   ("com.apple.private.security.no-sandbox", "No sandbox restriction"),
   ("com.apple.springboard.opensensitiveurl", "Open sensitive URLs"),
   ("com.apple.multitasking.systemappassertions", "System app assertions"),
   ("com.apple.backboardd.launchapplications", "Backboard launch applications"),
   ("com.apple.developer.system-extension.install", "System extension install"),
   ("com.apple.developer.driverkit", "DriverKit access"),
   ("com.apple.developer.kernel.extended-virtual-addressing", "Extended virtual addressing"),
   ("com.apple.developer.kernel.increased-memory-limit", "Increased memory limit")]

/-- Keys of the static entitlement dictionary; the test k in
self.entitlement_mappings is membership in this list. -/
def entitlementKeys : List String :=
  entitlement_mappings.map Prod.fst

/-- Keys of the static privacy dictionary. -/
def permissionKeys : List String :=
  permission_mappings.map Prod.fst

/-- Fallback label of a privacy key in the static dictionary. -/
def permissionLabel (k : String) : String :=
  (List.lookup k permission_mappings).getD ""

/- Schema Converter: format_date, generate_screenshot_urls and
convert_app_to_altstore_format, split into the sequential blocks of the
source method. -/

/-- Models format_date.  The source calls datetime.now().strftime with a
fixed -08:00 suffix when the input is empty; the formatted clock reading is
passed in as the parameter now. -/
def format_date (now : String) (date_str : String) : String :=
  if date_str == "" then now
  else if strContains date_str "T" then date_str
  else date_str ++ "T00:00:00-08:00"

/-- Models generate_screenshot_urls: one fallback URL when the base URL is
truthy, an empty list otherwise. -/
def generate_screenshot_urls (app_name : String) (base_url : String) : List String :=
  if base_url != "" then
    [base_url ++ "/serve/screenshots/" ++ app_name ++ "/" ++ sanitizeName app_name ++ "-0.png"]
  else []

/-- The base dict built at the start of convert_app_to_altstore_format, in
source order. -/
def baseFields (app : List (String × Json)) : List (String × Json) :=
  [("name", getD app "name" (Json.str "")),
   ("bundleIdentifier", getD app "bundleIdentifier" (Json.str "")),
   ("developerName", getD app "developerName" (Json.str "")),
   ("localizedDescription", getD app "localizedDescription" (Json.str "")),
   ("iconURL", getD app "iconURL" (Json.str "")),
   ("tintColor", getD app "tintColor" (Json.str "FFC300"))]

/-- Models the subtitle block: the subtitle is copied when truthy. -/
def withSubtitle (app : List (String × Json)) (r : List (String × Json)) : List (String × Json) :=
  if truthyKey app "subtitle" then setKey r "subtitle" (getD app "subtitle" Json.null) else r

/-- Models the screenshot block: an existing truthy screenshotURLs field
wins, then an existing truthy screenshots field, and as a last resort one
URL is synthesized from the icon URL prefix and the sanitised app name. -/
def withScreenshots (app : List (String × Json)) (r : List (String × Json)) : List (String × Json) :=
  if hasKey app "screenshotURLs" && truthyKey app "screenshotURLs" then
    setKey r "screenshots" (getD app "screenshotURLs" Json.null)
  else if hasKey app "screenshots" && truthyKey app "screenshots" then
    setKey r "screenshots" (getD app "screenshots" Json.null)
  else
    let icon := getStrD app "iconURL" ""
    if strContains icon "serve/icons" then
      let base_url := splitHead icon "/serve/icons/"
      if base_url != "" then
        let fallback := generate_screenshot_urls (getStrD app "name" "") base_url
        if !fallback.isEmpty then
          setKey r "screenshots" (Json.arr (fallback.map Json.str))
        else r
      else r
    else r

/-- The minOSVersion value chosen when the record carries no explicit
versions field: the source tests ios15 and w15 first, then ios16, then
ios14, then an explicit minOSVersion field, and falls back to 13.0. -/
def minOSValue (app : List (String × Json)) : Json :=
  let n := lowerStr (getStrD app "name" "")
  if strContains n "ios15" || strContains n "w15" then Json.str "15.0"
  else if strContains n "ios16" then Json.str "16.0"
  else if strContains n "ios14" then Json.str "14.0"
  else
    match List.lookup "minOSVersion" app with
    | some v => v
    | none => Json.str "13.0"

/-- The version_data dict synthesized from the legacy flat fields, in
source construction order (the minOSVersion key is assigned last). -/
def makeVersionData (now : String) (app : List (String × Json)) : List (String × Json) :=
  [("version", getD app "version" (Json.str "1.0")),
   ("date", Json.str (format_date now (getStrD app "versionDate" ""))),
   ("size", getD app "size" (Json.num 0)),
   ("downloadURL", getD app "downloadURL" (Json.str "")),
   ("localizedDescription", getD app "localizedDescription" (Json.str ""))]
  ++ [("minOSVersion", minOSValue app)]

/-- The value stored under the versions key: the existing field when the
record has one, otherwise a singleton list holding the synthesized
version_data. -/
def versionsValue (now : String) (app : List (String × Json)) : Json :=
  match List.lookup "versions" app with
  | some v => v
  | none => Json.arr [Json.obj (makeVersionData now app)]

/-- Outcome of one permission analysis: the entitlement identifier list and
the privacy dict, as in the dict literal of the source. -/
structure PermResult where
  entitlements : List String
  privacy : List (String × Json)

/-- Models the final block of convert_app_to_altstore_format: when analysis
is requested and the versions value is truthy, the download URL of the
first version entry is analysed (az stands for download_and_analyze_ipa
applied in the ambient network world) and a non-empty cleaned result is
attached under appPermissions.  A first versions element that is not a
record makes the Python source raise; claims range over schema-conforming
records, where that case does not arise. -/
def attachPermissions (analyze : Bool) (az : String → PermResult)
    (r : List (String × Json)) : List (String × Json) :=
  if analyze && truthyKey r "versions" then
    match getD r "versions" Json.null with
    | Json.arr (Json.obj v0 :: _) =>
        (match List.lookup "downloadURL" v0 with
         | some u =>
            if truthy u then
              let p := az (match u with | Json.str s => s | _ => "")
              if !p.entitlements.isEmpty || !p.privacy.isEmpty then
                let clean :=
                  (if !p.entitlements.isEmpty then
                    [("entitlements", Json.arr (p.entitlements.map Json.str))] else [])
                  ++ (if !p.privacy.isEmpty then [("privacy", Json.obj p.privacy)] else [])
                if !clean.isEmpty then setKey r "appPermissions" (Json.obj clean) else r
              else r
            else r
         | none => r)
    | _ => r
  else r

/-- The skip guard at the top of convert_app_to_altstore_format: an empty
record, or a record whose name or bundleIdentifier is missing or falsy, is
rejected. -/
def skipApp (app : List (String × Json)) : Bool :=
  app.isEmpty || !truthyKey app "name" || !truthyKey app "bundleIdentifier"

/-- Models convert_app_to_altstore_format.  The now parameter is the
formatted clock reading used by format_date, analyze is the analyze_ipa
flag and az is the permission analysis collaborator keyed by download URL.
The result is none exactly when the source returns None. -/
def convert_app_to_altstore_format (now : String) (analyze : Bool)
    (az : String → PermResult) (app : List (String × Json)) :
    Option (List (String × Json)) :=
  if skipApp app then none
  else
    some (attachPermissions analyze az
      (setKey (withScreenshots app (withSubtitle app (baseFields app)))
        "versions" (versionsValue now app)))

/- Archive Fetcher and Archive Inspector. -/

/-- Abstraction of the downloaded archive, at the interface the inspector
reads: whether a Payload bundle directory exists, the decoded manifest
dict when Info.plist is present and parses, and the recognised plist key
lists produced by the two external tools (none models every tool failure:
missing tool, non-zero exit, empty output, unparsable output, timeout, or a
missing embedded.mobileprovision). -/
structure IpaArchive where
  hasAppBundle : Bool
  infoPlist : Option (List (String × Json))
  codesignKeys : Option (List String)
  provisionKeys : Option (List String)

/-- Outcome of the HTTP fetch of download_and_analyze_ipa: the failure
constructors match the except-clauses of the source (timeout, connection
error, HTTP status error, any other exception) plus the downloaded file
failing the zipfile.is_zipfile check; ok carries the validated archive. -/
inductive FetchResult where
  | timeout : FetchResult
  | connError : FetchResult
  | httpError : FetchResult
  | notZip : FetchResult
  | otherError : FetchResult
  | ok (archive : IpaArchive) : FetchResult

/-- Value stored for a privacy key: the app-supplied description when it is
a truthy string whose strip() is truthy, otherwise the static fallback
label. -/
def privacyValue (k : String) (desc : Json) : Json :=
  match desc with
  | Json.str s => if s != "" && stripTruthy s then Json.str s else Json.str (permissionLabel k)
  | _ => Json.str (permissionLabel k)

/-- The privacy half of analyze_ipa_file: every manifest key present in the
static privacy dictionary is recorded. -/
def privacyFromPlist (kvs : List (String × Json)) : List (String × Json) :=
  kvs.foldl
    (fun acc kv =>
      if permissionKeys.contains kv.1 then setKey acc kv.1 (privacyValue kv.1 kv.2) else acc)
    []

/-- Models extract_entitlements_with_codesign: on any tool failure the
contribution is empty, otherwise the plist keys recognised by the static
entitlement dictionary, in plist order. -/
def extract_entitlements_with_codesign (outcome : Option (List String)) : List String :=
  match outcome with
  | none => []
  | some keys => keys.filter (fun k => entitlementKeys.contains k)

/-- Models extract_mobileprovision_with_security, with the same soft
failure policy as the codesign extraction. -/
def extract_mobileprovision_with_security (outcome : Option (List String)) : List String :=
  match outcome with
  | none => []
  | some keys => keys.filter (fun k => entitlementKeys.contains k)

/-- The merge loop of analyze_ipa_file: every provision entitlement not yet
present is appended. -/
def addNewEntitlements (acc : List String) (xs : List String) : List String :=
  xs.foldl (fun a e => if a.contains e then a else a ++ [e]) acc

/-- Byte-wise lexicographic comparison of character lists by code point,
the order Python sorted uses on strings. -/
def lexLe : List Char → List Char → Bool
  | [], _ => true
  | _ :: _, [] => false
  | a :: as, b :: bs =>
      if a.toNat = b.toNat then lexLe as bs else decide (a.toNat < b.toNat)

/-- Lexicographic order on strings by code point. -/
def strLe (a b : String) : Prop :=
  lexLe a.data b.data = true

instance : DecidableRel strLe :=
  fun a b => inferInstanceAs (Decidable (lexLe a.data b.data = true))

/-- Models sorted(list(set(l))): duplicates removed, then sorted in the
code point order. -/
def sortedDedup (l : List String) : List String :=
  List.insertionSort strLe l.dedup

/-- Models analyze_ipa_file: an archive without an app bundle yields the
empty result; otherwise the privacy permissions are read from the manifest
and the entitlements of the two tools are merged, deduplicated and
sorted. -/
def analyze_ipa_file (a : IpaArchive) : PermResult :=
  if !a.hasAppBundle then ⟨[], []⟩
  else
    let privacy :=
      match a.infoPlist with
      | none => []
      | some kvs => privacyFromPlist kvs
    let ents := extract_entitlements_with_codesign a.codesignKeys
    let ents := addNewEntitlements ents (extract_mobileprovision_with_security a.provisionKeys)
    ⟨sortedDedup ents, privacy⟩

/-- Models download_and_analyze_ipa: every failure outcome maps to the
empty result dict and a validated archive is passed to the inspector. -/
def download_and_analyze_ipa : FetchResult → PermResult
  | FetchResult.ok a => analyze_ipa_file a
  | _ => ⟨[], []⟩

/-- True on the failure outcomes of the fetch. -/
def FetchResult.isFailure : FetchResult → Bool
  | FetchResult.ok _ => false
  | _ => true

/- Catalog Converter: convert_repository. -/

/-- Reads the apps entries as records.  An entry that is not a record makes
the source raise before its try-block (app.get on a non-dict) and abort the
run; that case is mapped to none. -/
def asRecords : List Json → Option (List (List (String × Json)))
  | [] => some []
  | Json.obj kvs :: rest => (asRecords rest).map (fun l => kvs :: l)
  | _ :: _ => none

/-- Models data.get(apps, []) followed by record iteration: a missing apps
key yields the empty list, a list value must consist of records, and any
other value makes the run abort (modelled as none). -/
def getApps (doc : List (String × Json)) : Option (List (List (String × Json))) :=
  match List.lookup "apps" doc with
  | none => some []
  | some (Json.arr xs) => asRecords xs
  | some _ => none

/-- The conversion loop of convert_repository: converted records are
collected in order and every skipped record increments the counter. -/
def convertApps (now : String) (analyze : Bool) (az : String → PermResult) :
    List (List (String × Json)) → List Json × Nat
  | [] => ([], 0)
  | a :: rest =>
      let r := convertApps now analyze az rest
      match convert_app_to_altstore_format now analyze az a with
      | some c => (Json.obj c :: r.1, r.2)
      | none => (r.1, r.2 + 1)

/-- Models convert_repository on a loaded document: the apps entry is
replaced by the converted list, then missing identifier and sourceURL
fields are backfilled.  The outputBaseName parameter is
os.path.basename(output_file).  The returned pair is the written document
and the skipped-apps counter. -/
def convert_repository (now : String) (analyze : Bool) (az : String → PermResult)
    (outputBaseName : String) (doc : List (String × Json)) :
    Option (List (String × Json) × Nat) :=
  match getApps doc with
  | none => none
  | some apps =>
      let r := convertApps now analyze az apps
      let d1 := setKey doc "apps" (Json.arr r.1)
      let d2 :=
        if hasKey d1 "identifier" then d1
        else setKey d1 "identifier" (Json.str "com.converted.source")
      let d3 :=
        if hasKey d2 "sourceURL" then d2
        else setKey d2 "sourceURL" (Json.str ("https://example.com/" ++ outputBaseName))
      some (d3, r.2)

/- Schema conformance of a record, and projection helpers used by the
statements below. -/

/-- True when the field at k, if present, is a string. -/
def strOrAbsent (app : List (String × Json)) (k : String) : Bool :=
  match List.lookup k app with
  | none => true
  | some (Json.str _) => true
  | some _ => false

/-- A version entry of the destination schema at the interface the source
touches: a record whose downloadURL, if present, is a string. -/
def wfVersionEntry (j : Json) : Bool :=
  match j with
  | Json.obj kvs =>
      match List.lookup "downloadURL" kvs with
      | none => true
      | some (Json.str _) => true
      | some _ => false
  | _ => false

/-- Schema conformance of an app record at the fields the source applies
string or list operations to: name, iconURL and versionDate are strings
when present, and an explicit versions field is a list of version
entries.  On records outside this set the Python source raises a
TypeError instead of producing a value. -/
def wfApp (app : List (String × Json)) : Bool :=
  strOrAbsent app "name" && strOrAbsent app "iconURL" && strOrAbsent app "versionDate" &&
    (match List.lookup "versions" app with
     | none => true
     | some (Json.arr l) => l.all wfVersionEntry
     | some _ => false)

/-- Field of a conversion result, when the conversion produced one. -/
def convertedField (r : Option (List (String × Json))) (k : String) : Option Json :=
  r.bind (fun o => List.lookup k o)

/-- First element of a version list, when it is a record. -/
def firstVersionObj (j : Json) : Option (List (String × Json)) :=
  match j with
  | Json.arr (Json.obj vd :: _) => some vd
  | _ => none

/-- Field of the first version entry of a conversion result. -/
def convertedFirstVersionField (r : Option (List (String × Json))) (k : String) : Option Json :=
  (convertedField r "versions").bind (fun v => (firstVersionObj v).bind (fun vd => List.lookup k vd))

/- General lemmas about the dict model. -/

theorem lookup_setKey_self (d : List (String × Json)) (k : String) (v : Json) :
    List.lookup k (setKey d k v) = some v := by
  induction d with
  | nil => simp [setKey, List.lookup]
  | cons p rest ih =>
      obtain ⟨k2, v2⟩ := p
      by_cases h : k2 = k
      · subst h
        simp [setKey, List.lookup]
      · have hb : (k2 == k) = false := beq_eq_false_iff_ne.mpr h
        have hb2 : (k == k2) = false := beq_eq_false_iff_ne.mpr (Ne.symm h)
        simp [setKey, hb, List.lookup, hb2, ih]

theorem lookup_setKey_ne (d : List (String × Json)) (k k2 : String) (v : Json)
    (h : k ≠ k2) : List.lookup k (setKey d k2 v) = List.lookup k d := by
  induction d with
  | nil => simp [setKey, List.lookup, beq_eq_false_iff_ne.mpr h]
  | cons p rest ih =>
      obtain ⟨k3, v3⟩ := p
      by_cases h3 : k3 = k2
      · subst h3
        simp [setKey, List.lookup, beq_eq_false_iff_ne.mpr h]
      · simp [setKey, beq_eq_false_iff_ne.mpr h3, List.lookup, ih]

theorem isEmpty_false_of_truthyKey (app : List (String × Json)) (k : String)
    (h : truthyKey app k = true) : app.isEmpty = false := by
  cases app with
  | nil => simp [truthyKey, getD, List.lookup, truthy] at h
  | cons p rest => rfl

theorem skipApp_eq_false (app : List (String × Json))
    (hn : truthyKey app "name" = true) (hb : truthyKey app "bundleIdentifier" = true) :
    skipApp app = false := by
  simp [skipApp, hn, hb, isEmpty_false_of_truthyKey app "name" hn]

theorem lookup_withSubtitle_ne (app r : List (String × Json)) (k : String)
    (h : k ≠ "subtitle") :
    List.lookup k (withSubtitle app r) = List.lookup k r := by
  unfold withSubtitle
  split
  · exact lookup_setKey_ne r k "subtitle" _ h
  · rfl

theorem lookup_withScreenshots_ne (app r : List (String × Json)) (k : String)
    (h : k ≠ "screenshots") :
    List.lookup k (withScreenshots app r) = List.lookup k r := by
  unfold withScreenshots
  dsimp only
  repeat' split
  all_goals first
    | rfl
    | exact lookup_setKey_ne r k "screenshots" _ h

theorem lookup_attachPermissions_ne (analyze : Bool) (az : String → PermResult)
    (r : List (String × Json)) (k : String) (h : k ≠ "appPermissions") :
    List.lookup k (attachPermissions analyze az r) = List.lookup k r := by
  unfold attachPermissions
  dsimp only
  repeat' split
  all_goals first
    | rfl
    | exact lookup_setKey_ne r k "appPermissions" _ h

theorem convert_eq_some (now : String) (analyze : Bool) (az : String → PermResult)
    (app : List (String × Json)) (h : skipApp app = false) :
    convert_app_to_altstore_format now analyze az app =
      some (attachPermissions analyze az
        (setKey (withScreenshots app (withSubtitle app (baseFields app)))
          "versions" (versionsValue now app))) := by
  simp [convert_app_to_altstore_format, h]

theorem lookup_versions_converted (now : String) (analyze : Bool)
    (az : String → PermResult) (app : List (String × Json)) (h : skipApp app = false) :
    convertedField (convert_app_to_altstore_format now analyze az app) "versions" =
      some (versionsValue now app) := by
  rw [convertedField, convert_eq_some now analyze az app h, Option.some_bind]
  rw [lookup_attachPermissions_ne _ _ _ _ (by decide)]
  exact lookup_setKey_self _ _ _

theorem lookup_minOS_makeVersionData (now : String) (app : List (String × Json)) :
    List.lookup "minOSVersion" (makeVersionData now app) = some (minOSValue app) := rfl

/- Lemmas about the conversion loop. -/

theorem convertApps_eq (now : String) (analyze : Bool) (az : String → PermResult)
    (l : List (List (String × Json))) :
    convertApps now analyze az l =
      (l.filterMap (fun a => (convert_app_to_altstore_format now analyze az a).map Json.obj),
       l.countP (fun a => (convert_app_to_altstore_format now analyze az a).isNone)) := by
  induction l with
  | nil => rfl
  | cons a rest ih =>
      simp only [convertApps, ih, List.filterMap_cons, List.countP_cons]
      cases h : convert_app_to_altstore_format now analyze az a <;> simp [h]

/- Order lemmas for the entitlement sort. -/

theorem lexLe_total : ∀ a b : List Char, lexLe a b = true ∨ lexLe b a = true := by
  intro a
  induction a with
  | nil => intro b; left; rfl
  | cons x xs ih =>
      intro b
      cases b with
      | nil => right; rfl
      | cons y ys =>
          simp only [lexLe]
          by_cases h : x.toNat = y.toNat
          · rw [if_pos h, if_pos h.symm]
            exact ih ys
          · rw [if_neg h, if_neg (fun hh => h hh.symm)]
            rcases Nat.lt_or_ge x.toNat y.toNat with hlt | hge
            · left; exact decide_eq_true hlt
            · right
              exact decide_eq_true (by omega)

theorem lexLe_trans :
    ∀ a b c : List Char, lexLe a b = true → lexLe b c = true → lexLe a c = true := by
  intro a
  induction a with
  | nil => intro b c h1 h2; rfl
  | cons x xs ih =>
      intro b c h1 h2
      cases b with
      | nil => simp [lexLe] at h1
      | cons y ys =>
          cases c with
          | nil => simp [lexLe] at h2
          | cons z zs =>
              simp only [lexLe] at h1 h2 ⊢
              by_cases hxy : x.toNat = y.toNat <;> by_cases hyz : y.toNat = z.toNat
              · rw [if_pos hxy] at h1
                rw [if_pos hyz] at h2
                rw [if_pos (hxy.trans hyz)]
                exact ih ys zs h1 h2
              · rw [if_pos hxy] at h1
                rw [if_neg hyz] at h2
                have h2n : y.toNat < z.toNat := of_decide_eq_true h2
                rw [if_neg (by omega : ¬ x.toNat = z.toNat)]
                exact decide_eq_true (by omega)
              · rw [if_neg hxy] at h1
                rw [if_pos hyz] at h2
                have h1n : x.toNat < y.toNat := of_decide_eq_true h1
                rw [if_neg (by omega : ¬ x.toNat = z.toNat)]
                exact decide_eq_true (by omega)
              · rw [if_neg hxy] at h1
                rw [if_neg hyz] at h2
                have h1n : x.toNat < y.toNat := of_decide_eq_true h1
                have h2n : y.toNat < z.toNat := of_decide_eq_true h2
                rw [if_neg (by omega : ¬ x.toNat = z.toNat)]
                exact decide_eq_true (by omega)

instance : IsTotal String strLe :=
  ⟨fun a b => lexLe_total a.data b.data⟩

instance : IsTrans String strLe :=
  ⟨fun a b c => lexLe_trans a.data b.data c.data⟩

theorem mem_addNewEntitlements :
    ∀ (xs acc : List String) (x : String),
      x ∈ addNewEntitlements acc xs ↔ x ∈ acc ∨ x ∈ xs := by
  intro xs
  induction xs with
  | nil => intro acc x; simp [addNewEntitlements]
  | cons e rest ih =>
      intro acc x
      have hstep : addNewEntitlements acc (e :: rest) =
          addNewEntitlements (if acc.contains e then acc else acc ++ [e]) rest := rfl
      rw [hstep, ih]
      by_cases h : acc.contains e = true
      · have he : e ∈ acc := by
          have : acc.elem e = true := h
          exact List.elem_iff.mp this
        simp only [h, if_pos]
        constructor
        · rintro (hx | hx)
          · exact Or.inl hx
          · exact Or.inr (List.mem_cons_of_mem e hx)
        · rintro (hx | hx)
          · exact Or.inl hx
          · rcases List.mem_cons.mp hx with hx | hx
            · exact Or.inl (hx ▸ he)
            · exact Or.inr hx
      · simp only [h]
        rw [if_neg (by simp [h])]
        constructor
        · rintro (hx | hx)
          · rcases List.mem_append.mp hx with hx | hx
            · exact Or.inl hx
            · exact Or.inr (List.mem_cons.mpr (Or.inl (List.mem_singleton.mp hx)))
          · exact Or.inr (List.mem_cons_of_mem e hx)
        · rintro (hx | hx)
          · exact Or.inl (List.mem_append.mpr (Or.inl hx))
          · rcases List.mem_cons.mp hx with hx | hx
            · exact Or.inl (List.mem_append.mpr (Or.inr (List.mem_singleton.mpr hx)))
            · exact Or.inr hx

theorem mem_sortedDedup (l : List String) (x : String) :
    x ∈ sortedDedup l ↔ x ∈ l := by
  rw [sortedDedup, (List.perm_insertionSort strLe l.dedup).mem_iff]
  exact List.mem_dedup

theorem nodup_sortedDedup (l : List String) : (sortedDedup l).Nodup :=
  (List.perm_insertionSort strLe l.dedup).symm.nodup (List.nodup_dedup l)

theorem pairwise_sortedDedup (l : List String) : List.Pairwise strLe (sortedDedup l) :=
  List.sorted_insertionSort strLe l.dedup

/- Concrete records used by the claim statements below. -/

/-- Record of the C7 scenario. -/
def fooApp : List (String × Json) :=
  [("name", Json.str "Foo"), ("bundleIdentifier", Json.str "com.x.foo"),
   ("version", Json.str "2.0"), ("downloadURL", Json.str "https://h/f.ipa")]

/-- Complete record that carries an explicit empty versions list. -/
def emptyVersionsApp : List (String × Json) :=
  [("name", Json.str "A"), ("bundleIdentifier", Json.str "b"), ("versions", Json.arr [])]

/-- Complete record whose name contains both the w15 and the ios16
marker. -/
def bothMarkersApp : List (String × Json) :=
  [("name", Json.str "sw15ios16"), ("bundleIdentifier", Json.str "b")]

/-- Permission analysis collaborator that always reports the empty
result. -/
def azEmpty : String → PermResult := fun _ => ⟨[], []⟩

/- Claim C1. -/

/-- C1 counterexample: the record emptyVersionsApp has a non-empty name and
a non-empty bundleIdentifier and arrives with an explicit versions field
holding the empty list; the converter produces a record, but its versions
list is the empty list, so it does not contain at least one VersionEntry as
the claim demands for every such input. -/
theorem c1_counterexample :
    (convert_app_to_altstore_format "2024-01-01T00:00:00-08:00" false azEmpty
      emptyVersionsApp).isSome = true ∧
    convertedField (convert_app_to_altstore_format "2024-01-01T00:00:00-08:00" false azEmpty
      emptyVersionsApp) "versions" = some (Json.arr []) :=
  ⟨rfl, rfl⟩

/-- C1 (amended): for every record with a truthy name and a truthy
bundleIdentifier, convert_app_to_altstore_format returns exactly one
converted record, and that record holds at least one version entry under
its versions key whenever the input carries no explicit versions field or
carries a non-empty explicit versions list (an explicit empty list is
copied through empty). -/
theorem c1_amended_output_has_version (now : String) (analyze : Bool)
    (az : String → PermResult) (app : List (String × Json))
    (hn : truthyKey app "name" = true) (hb : truthyKey app "bundleIdentifier" = true) :
    ∃ out, convert_app_to_altstore_format now analyze az app = some out ∧
      ((List.lookup "versions" app = none ∨
        (∃ l, List.lookup "versions" app = some (Json.arr l) ∧ l ≠ [])) →
       ∃ l, List.lookup "versions" out = some (Json.arr l) ∧ l ≠ []) := by
  have hs := skipApp_eq_false app hn hb
  refine ⟨attachPermissions analyze az
      (setKey (withScreenshots app (withSubtitle app (baseFields app)))
        "versions" (versionsValue now app)),
    convert_eq_some now analyze az app hs, ?_⟩
  have hlook : List.lookup "versions"
      (attachPermissions analyze az
        (setKey (withScreenshots app (withSubtitle app (baseFields app)))
          "versions" (versionsValue now app))) = some (versionsValue now app) := by
    rw [lookup_attachPermissions_ne _ _ _ _ (by decide)]
    exact lookup_setKey_self _ _ _
  rintro (hv | ⟨l, hv, hne⟩)
  · refine ⟨[Json.obj (makeVersionData now app)], ?_, by simp⟩
    rw [hlook]
    simp [versionsValue, hv]
  · refine ⟨l, ?_, hne⟩
    rw [hlook]
    simp [versionsValue, hv]

/-- C1 witness: the amended statement applied to a concrete two-field
record. -/
theorem c1_witness :
    truthyKey [("name", Json.str "A"), ("bundleIdentifier", Json.str "b")] "name" = true ∧
    ∃ out, convert_app_to_altstore_format "n" false azEmpty
        [("name", Json.str "A"), ("bundleIdentifier", Json.str "b")] = some out ∧
      ((List.lookup "versions" [("name", Json.str "A"), ("bundleIdentifier", Json.str "b")] = none ∨
        (∃ l, List.lookup "versions" [("name", Json.str "A"), ("bundleIdentifier", Json.str "b")] =
          some (Json.arr l) ∧ l ≠ [])) →
       ∃ l, List.lookup "versions" out = some (Json.arr l) ∧ l ≠ []) :=
  ⟨rfl, c1_amended_output_has_version "n" false azEmpty
    [("name", Json.str "A"), ("bundleIdentifier", Json.str "b")] rfl rfl⟩

/- Claim C2. -/

/-- C2: a record whose name or bundleIdentifier is missing or falsy is
skipped: the converter returns none, and inside the conversion loop of
convert_repository the record contributes nothing to the output list while
the skipped-apps counter grows by exactly one. -/
theorem c2_skip_excluded_and_counted (now : String) (analyze : Bool)
    (az : String → PermResult) (app : List (String × Json))
    (h : truthyKey app "name" = false ∨ truthyKey app "bundleIdentifier" = false) :
    convert_app_to_altstore_format now analyze az app = none ∧
    ∀ l1 l2 : List (List (String × Json)),
      (convertApps now analyze az (l1 ++ app :: l2)).1 =
        (convertApps now analyze az (l1 ++ l2)).1 ∧
      (convertApps now analyze az (l1 ++ app :: l2)).2 =
        (convertApps now analyze az (l1 ++ l2)).2 + 1 := by
  have hskip : skipApp app = true := by
    rcases h with h | h <;> simp [skipApp, h]
  have hconv : convert_app_to_altstore_format now analyze az app = none := by
    simp [convert_app_to_altstore_format, hskip]
  refine ⟨hconv, ?_⟩
  intro l1 l2
  constructor
  · rw [convertApps_eq, convertApps_eq]
    simp [List.filterMap_append, List.filterMap_cons, hconv]
  · rw [convertApps_eq, convertApps_eq]
    simp [List.countP_append, List.countP_cons, hconv]
    omega

/-- C2 witness: a record with an empty name is rejected and counted once by
the loop. -/
theorem c2_witness :
    truthyKey [("name", Json.str "")] "name" = false ∧
    convert_app_to_altstore_format "n" false azEmpty [("name", Json.str "")] = none ∧
    (convertApps "n" false azEmpty [[("name", Json.str "")]]).2 = 1 :=
  ⟨rfl,
   (c2_skip_excluded_and_counted "n" false azEmpty [("name", Json.str "")] (Or.inl rfl)).1,
   ((c2_skip_excluded_and_counted "n" false azEmpty [("name", Json.str "")] (Or.inl rfl)).2 [] []).2⟩

/- Claim C3. -/

/-- C3 counterexample: the name sw15ios16 contains the substring ios16
(case-insensitively), so the claim assigns minOSVersion 16.0, but the
converter synthesizes 15.0 because the source tests ios15/w15 before
ios16. -/
theorem c3_counterexample :
    strContains (lowerStr "sw15ios16") "ios16" = true ∧
    convertedFirstVersionField (convert_app_to_altstore_format "n" false azEmpty
      bothMarkersApp) "minOSVersion" = some (Json.str "15.0") ∧
    ("15.0" : String) ≠ "16.0" :=
  ⟨rfl, rfl, by decide⟩

/-- C3 (amended): for a record without an explicit versions field the
synthesized minOSVersion follows the priority chain of the source: a
lowered name containing ios15 or w15 yields 15.0; otherwise one containing
ios16 yields 16.0; otherwise one containing ios14 yields 14.0; otherwise a
present minOSVersion field is copied; otherwise the default is 13.0. -/
theorem c3_amended_minos_priority_chain (now : String) (analyze : Bool)
    (az : String → PermResult) (app : List (String × Json))
    (hn : truthyKey app "name" = true) (hb : truthyKey app "bundleIdentifier" = true)
    (hv : List.lookup "versions" app = none) :
    (convert_app_to_altstore_format now analyze az app).isSome = true ∧
    ((strContains (lowerStr (getStrD app "name" "")) "ios15" ||
      strContains (lowerStr (getStrD app "name" "")) "w15") = true →
      convertedFirstVersionField (convert_app_to_altstore_format now analyze az app)
        "minOSVersion" = some (Json.str "15.0")) ∧
    ((strContains (lowerStr (getStrD app "name" "")) "ios15" ||
      strContains (lowerStr (getStrD app "name" "")) "w15") = false →
     strContains (lowerStr (getStrD app "name" "")) "ios16" = true →
      convertedFirstVersionField (convert_app_to_altstore_format now analyze az app)
        "minOSVersion" = some (Json.str "16.0")) ∧
    ((strContains (lowerStr (getStrD app "name" "")) "ios15" ||
      strContains (lowerStr (getStrD app "name" "")) "w15") = false →
     strContains (lowerStr (getStrD app "name" "")) "ios16" = false →
     strContains (lowerStr (getStrD app "name" "")) "ios14" = true →
      convertedFirstVersionField (convert_app_to_altstore_format now analyze az app)
        "minOSVersion" = some (Json.str "14.0")) ∧
    ((strContains (lowerStr (getStrD app "name" "")) "ios15" ||
      strContains (lowerStr (getStrD app "name" "")) "w15") = false →
     strContains (lowerStr (getStrD app "name" "")) "ios16" = false →
     strContains (lowerStr (getStrD app "name" "")) "ios14" = false →
      (∀ v, List.lookup "minOSVersion" app = some v →
        convertedFirstVersionField (convert_app_to_altstore_format now analyze az app)
          "minOSVersion" = some v) ∧
      (List.lookup "minOSVersion" app = none →
        convertedFirstVersionField (convert_app_to_altstore_format now analyze az app)
          "minOSVersion" = some (Json.str "13.0"))) := by
  have hs := skipApp_eq_false app hn hb
  have hfield : convertedFirstVersionField (convert_app_to_altstore_format now analyze az app)
      "minOSVersion" = some (minOSValue app) := by
    rw [convertedFirstVersionField, lookup_versions_converted now analyze az app hs]
    simp [versionsValue, hv, firstVersionObj, lookup_minOS_makeVersionData]
  refine ⟨?_, ?_, ?_, ?_, ?_⟩
  · rw [convert_eq_some now analyze az app hs]
    rfl
  · intro h15
    rw [hfield]
    simp [minOSValue, h15]
  · intro h15 h16
    rw [hfield]
    simp [minOSValue, h15, h16]
  · intro h15 h16 h14
    rw [hfield]
    simp [minOSValue, h15, h16, h14]
  · intro h15 h16 h14
    constructor
    · intro v hmv
      rw [hfield]
      simp [minOSValue, h15, h16, h14, hmv]
    · intro hmv
      rw [hfield]
      simp [minOSValue, h15, h16, h14, hmv]

/-- C3 witness: the amended chain applied to a record named ios14wallpaper
with no explicit minOSVersion field. -/
theorem c3_witness :
    truthyKey [("name", Json.str "ios14wallpaper"), ("bundleIdentifier", Json.str "b")]
      "name" = true ∧
    convertedFirstVersionField (convert_app_to_altstore_format "n" false azEmpty
      [("name", Json.str "ios14wallpaper"), ("bundleIdentifier", Json.str "b")])
      "minOSVersion" = some (Json.str "14.0") :=
  ⟨rfl,
   (c3_amended_minos_priority_chain "n" false azEmpty
      [("name", Json.str "ios14wallpaper"), ("bundleIdentifier", Json.str "b")]
      rfl rfl rfl).2.2.2.1 rfl rfl rfl⟩

/- Claim C6. -/

/-- C6: a record that already carries an explicit versions field has that
value copied into the output unchanged. -/
theorem c6_explicit_versions_copied (now : String) (analyze : Bool)
    (az : String → PermResult) (app : List (String × Json)) (v : Json)
    (hn : truthyKey app "name" = true) (hb : truthyKey app "bundleIdentifier" = true)
    (hv : List.lookup "versions" app = some v) :
    ∃ out, convert_app_to_altstore_format now analyze az app = some out ∧
      List.lookup "versions" out = some v := by
  have hs := skipApp_eq_false app hn hb
  refine ⟨attachPermissions analyze az
      (setKey (withScreenshots app (withSubtitle app (baseFields app)))
        "versions" (versionsValue now app)),
    convert_eq_some now analyze az app hs, ?_⟩
  rw [lookup_attachPermissions_ne _ _ _ _ (by decide), lookup_setKey_self]
  simp [versionsValue, hv]

/-- C6 witness: a destination-schema record keeps its version entry
verbatim. -/
theorem c6_witness :
    List.lookup "versions"
      [("name", Json.str "A"), ("bundleIdentifier", Json.str "b"),
       ("versions", Json.arr [Json.obj [("version", Json.str "9.9")]])] =
      some (Json.arr [Json.obj [("version", Json.str "9.9")]]) ∧
    ∃ out, convert_app_to_altstore_format "n" false azEmpty
        [("name", Json.str "A"), ("bundleIdentifier", Json.str "b"),
         ("versions", Json.arr [Json.obj [("version", Json.str "9.9")]])] = some out ∧
      List.lookup "versions" out = some (Json.arr [Json.obj [("version", Json.str "9.9")]]) :=
  ⟨rfl,
   c6_explicit_versions_copied "n" false azEmpty
     [("name", Json.str "A"), ("bundleIdentifier", Json.str "b"),
      ("versions", Json.arr [Json.obj [("version", Json.str "9.9")]])]
     (Json.arr [Json.obj [("version", Json.str "9.9")]]) rfl rfl rfl⟩

/- Claim C7. -/

/-- C7: converting the single Foo record with analysis disabled yields
exactly one output record whose versions list is the singleton holding
version 2.0, the download URL, minOSVersion 13.0, the formatted current
time with the fixed -08:00 offset, size 0 and an empty description, and the
output carries no appPermissions key.  The output dict is written in the
construction order of the source; as a dict it equals the record of the
claim. -/
theorem c7_scenario_exact_output (now : String) (az : String → PermResult) :
    convert_app_to_altstore_format now false az fooApp =
      some [("name", Json.str "Foo"), ("bundleIdentifier", Json.str "com.x.foo"),
            ("developerName", Json.str ""), ("localizedDescription", Json.str ""),
            ("iconURL", Json.str ""), ("tintColor", Json.str "FFC300"),
            ("versions", Json.arr [Json.obj
              [("version", Json.str "2.0"), ("date", Json.str now),
               ("size", Json.num 0), ("downloadURL", Json.str "https://h/f.ipa"),
               ("localizedDescription", Json.str ""),
               ("minOSVersion", Json.str "13.0")]])] ∧
    convertedField (convert_app_to_altstore_format now false az fooApp) "appPermissions" =
      none :=
  ⟨rfl, rfl⟩

/- Supporting lemmas for claims C4 and C5. -/

theorem attachPermissions_of_empty (analyze : Bool) (az : String → PermResult)
    (h : ∀ u, az u = PermResult.mk [] []) (r : List (String × Json)) :
    attachPermissions analyze az r = r := by
  unfold attachPermissions
  dsimp only
  repeat' split
  all_goals simp_all [h]

theorem lookup_appPermissions_pre (now : String) (app : List (String × Json)) :
    List.lookup "appPermissions"
      (setKey (withScreenshots app (withSubtitle app (baseFields app)))
        "versions" (versionsValue now app)) = none := by
  rw [lookup_setKey_ne _ _ _ _ (by decide),
    lookup_withScreenshots_ne _ _ _ (by decide),
    lookup_withSubtitle_ne _ _ _ (by decide)]
  rfl

theorem contains_iff_mem (l : List String) (x : String) :
    l.contains x = true ↔ x ∈ l :=
  List.elem_iff

/- Claim C4. -/

/-- C4: every failing fetch outcome (timeout, connection error, HTTP status
error, other exception, or content that is not a valid archive) makes
download_and_analyze_ipa return the empty PermissionResult, and when every
fetch of the ambient world fails, the record converted with analysis
enabled carries no appPermissions key at all. -/
theorem c4_failed_fetch_empty_and_no_key :
    (∀ r : FetchResult, r.isFailure = true →
      download_and_analyze_ipa r = PermResult.mk [] []) ∧
    (∀ (now : String) (world : String → FetchResult) (app out : List (String × Json)),
      (∀ u, (world u).isFailure = true) →
      convert_app_to_altstore_format now true
        (fun u => download_and_analyze_ipa (world u)) app = some out →
      List.lookup "appPermissions" out = none) := by
  constructor
  · intro r hr
    cases r with
    | ok a => simp [FetchResult.isFailure] at hr
    | timeout => rfl
    | connError => rfl
    | httpError => rfl
    | notZip => rfl
    | otherError => rfl
  · intro now world app out hw hconv
    have haz : ∀ u, download_and_analyze_ipa (world u) = PermResult.mk [] [] := by
      intro u
      have hu := hw u
      cases hwu : world u with
      | ok a => rw [hwu] at hu; simp [FetchResult.isFailure] at hu
      | timeout => rfl
      | connError => rfl
      | httpError => rfl
      | notZip => rfl
      | otherError => rfl
    by_cases hs : skipApp app = true
    · simp [convert_app_to_altstore_format, hs] at hconv
    · rw [convert_eq_some now true _ app (by simpa using hs)] at hconv
      have hout := Option.some.inj hconv
      rw [← hout, attachPermissions_of_empty true _ haz]
      exact lookup_appPermissions_pre now app

/-- C4 witness: with a world in which every fetch times out, the analysis
of the fetch outcome is empty and the converted Foo record, produced with
analysis enabled, has no appPermissions key. -/
theorem c4_witness :
    FetchResult.isFailure FetchResult.timeout = true ∧
    download_and_analyze_ipa FetchResult.timeout = PermResult.mk [] [] ∧
    convertedField (convert_app_to_altstore_format "n" true
      (fun u => download_and_analyze_ipa ((fun _ => FetchResult.timeout) u)) fooApp)
      "appPermissions" = none := by
  refine ⟨rfl, c4_failed_fetch_empty_and_no_key.1 FetchResult.timeout rfl, ?_⟩
  have hconv : convert_app_to_altstore_format "n" true
      (fun u => download_and_analyze_ipa ((fun _ => FetchResult.timeout) u)) fooApp =
      some [("name", Json.str "Foo"), ("bundleIdentifier", Json.str "com.x.foo"),
            ("developerName", Json.str ""), ("localizedDescription", Json.str ""),
            ("iconURL", Json.str ""), ("tintColor", Json.str "FFC300"),
            ("versions", Json.arr [Json.obj
              [("version", Json.str "2.0"), ("date", Json.str "n"),
               ("size", Json.num 0), ("downloadURL", Json.str "https://h/f.ipa"),
               ("localizedDescription", Json.str ""),
               ("minOSVersion", Json.str "13.0")]])] := rfl
  have h := c4_failed_fetch_empty_and_no_key.2 "n" (fun _ => FetchResult.timeout) fooApp _
    (fun _ => rfl) hconv
  rw [convertedField, hconv, Option.some_bind]
  exact h

/- Claim C5. -/

/-- C5: whenever the archive has an app bundle and both external tools
produce a parsed key list, the entitlement list returned by
analyze_ipa_file has no duplicates, is sorted in the code point order
Python sorted uses, and holds exactly the keys of either tool output that
belong to the static entitlement dictionary, regardless of which tool
reported each key. -/
theorem c5_entitlements_sorted_dedup_union (a : IpaArchive) (ka kb : List String)
    (hb : a.hasAppBundle = true)
    (hc : a.codesignKeys = some ka) (hp : a.provisionKeys = some kb) :
    (analyze_ipa_file a).entitlements.Nodup ∧
    List.Pairwise strLe (analyze_ipa_file a).entitlements ∧
    (∀ x, x ∈ (analyze_ipa_file a).entitlements ↔
      ((x ∈ ka ∨ x ∈ kb) ∧ x ∈ entitlementKeys)) := by
  have hent : (analyze_ipa_file a).entitlements =
      sortedDedup (addNewEntitlements (extract_entitlements_with_codesign a.codesignKeys)
        (extract_mobileprovision_with_security a.provisionKeys)) := by
    simp [analyze_ipa_file, hb]
  refine ⟨?_, ?_, ?_⟩
  · rw [hent]; exact nodup_sortedDedup _
  · rw [hent]; exact pairwise_sortedDedup _
  · intro x
    rw [hent, mem_sortedDedup, mem_addNewEntitlements, hc, hp]
    simp only [extract_entitlements_with_codesign, extract_mobileprovision_with_security,
      List.mem_filter, contains_iff_mem]
    tauto

/-- Archive used by the C5 witness: one key reported by both tools, one
recognised key per tool, and one unrecognised key. -/
def sampleArchive : IpaArchive :=
  ⟨true, none, some ["get-task-allow", "zzz", "aps-environment"],
   some ["aps-environment", "com.apple.developer.siri"]⟩

/-- C5 witness: the sorted deduplicated union on a concrete archive, with
the membership property evaluated at the key reported by the codesign
tool. -/
theorem c5_witness :
    sampleArchive.hasAppBundle = true ∧
    (analyze_ipa_file sampleArchive).entitlements.Nodup ∧
    List.Pairwise strLe (analyze_ipa_file sampleArchive).entitlements ∧
    ("get-task-allow" ∈ (analyze_ipa_file sampleArchive).entitlements ↔
      (("get-task-allow" ∈ ["get-task-allow", "zzz", "aps-environment"] ∨
        "get-task-allow" ∈ ["aps-environment", "com.apple.developer.siri"]) ∧
       "get-task-allow" ∈ entitlementKeys)) := by
  have h := c5_entitlements_sorted_dedup_union sampleArchive
    ["get-task-allow", "zzz", "aps-environment"]
    ["aps-environment", "com.apple.developer.siri"] rfl rfl rfl
  exact ⟨rfl, h.1, h.2.1, h.2.2 "get-task-allow"⟩

/- Claim C8. -/

/-- C8: for a record whose icon URL is
https://x.test/serve/icons/App.png and that has neither a screenshotURLs
nor a screenshots field, the converter synthesizes exactly one screenshot
URL: its base is https://x.test and its filename token is the app name with
every character outside the safe set of letters, digits, dash, underscore
and dot replaced by an underscore.  The ASCII hypothesis pins down the
domain on which the embedded character class agrees with the Python regular
expression. -/
theorem c8_screenshot_fallback_sanitized (now : String) (analyze : Bool)
    (az : String → PermResult) (app : List (String × Json)) (name : String)
    (hname : List.lookup "name" app = some (Json.str name))
    (hne : name ≠ "")
    (hb : truthyKey app "bundleIdentifier" = true)
    (hicon : List.lookup "iconURL" app = some (Json.str "https://x.test/serve/icons/App.png"))
    (hs1 : List.lookup "screenshotURLs" app = none)
    (hs2 : List.lookup "screenshots" app = none)
    (hascii : ∀ c ∈ name.data, c.toNat < 128) :
    ∃ out, convert_app_to_altstore_format now analyze az app = some out ∧
      List.lookup "screenshots" out =
        some (Json.arr [Json.str ("https://x.test" ++ "/serve/screenshots/" ++ name ++ "/" ++
          String.mk (name.data.map
            (fun c => if c.isAlphanum || c == '_' || c == '-' || c == '.' then c else '_')) ++
          "-0.png")]) := by
  have hn : truthyKey app "name" = true := by
    simp [truthyKey, getD, hname, truthy, hne]
  have hs := skipApp_eq_false app hn hb
  refine ⟨attachPermissions analyze az
      (setKey (withScreenshots app (withSubtitle app (baseFields app)))
        "versions" (versionsValue now app)),
    convert_eq_some now analyze az app hs, ?_⟩
  rw [lookup_attachPermissions_ne _ _ _ _ (by decide),
    lookup_setKey_ne _ _ _ _ (by decide)]
  have hk1 : (hasKey app "screenshotURLs" && truthyKey app "screenshotURLs") = false := by
    simp [hasKey, hs1]
  have hk2 : (hasKey app "screenshots" && truthyKey app "screenshots") = false := by
    simp [hasKey, hs2]
  have hiconst : getStrD app "iconURL" "" = "https://x.test/serve/icons/App.png" := by
    simp [getStrD, hicon]
  have hnamest : getStrD app "name" "" = name := by
    simp [getStrD, hname]
  unfold withScreenshots
  rw [if_neg (by simp [hk1]), if_neg (by simp [hk2])]
  dsimp only
  rw [hiconst, hnamest]
  rw [if_pos (by rfl : strContains "https://x.test/serve/icons/App.png" "serve/icons" = true)]
  rw [if_pos (by rfl :
    (splitHead "https://x.test/serve/icons/App.png" "/serve/icons/" != "") = true)]
  rw [if_pos (by rfl :
    (!(generate_screenshot_urls name
      (splitHead "https://x.test/serve/icons/App.png" "/serve/icons/")).isEmpty) = true)]
  rw [lookup_setKey_self]
  rfl

/-- C8 witness: the fallback URL synthesized for a record named My App!,
whose sanitized token is My_App_. -/
theorem c8_witness :
    List.lookup "screenshotURLs"
      [("name", Json.str "My App!"), ("bundleIdentifier", Json.str "b"),
       ("iconURL", Json.str "https://x.test/serve/icons/App.png")] = none ∧
    ∃ out, convert_app_to_altstore_format "n" false azEmpty
        [("name", Json.str "My App!"), ("bundleIdentifier", Json.str "b"),
         ("iconURL", Json.str "https://x.test/serve/icons/App.png")] = some out ∧
      List.lookup "screenshots" out =
        some (Json.arr [Json.str ("https://x.test" ++ "/serve/screenshots/" ++ "My App!" ++ "/" ++
          String.mk ((("My App!" : String)).data.map
            (fun c => if c.isAlphanum || c == '_' || c == '-' || c == '.' then c else '_')) ++
          "-0.png")]) :=
  ⟨rfl,
   c8_screenshot_fallback_sanitized "n" false azEmpty
     [("name", Json.str "My App!"), ("bundleIdentifier", Json.str "b"),
      ("iconURL", Json.str "https://x.test/serve/icons/App.png")]
     "My App!" rfl (by decide) rfl rfl rfl rfl (by decide)⟩

/- Claim C9. -/

/-- C9: for every loadable catalog the written document always carries an
identifier and a sourceURL: values present in the input are kept as they
are, a missing identifier becomes com.converted.source, and a missing
sourceURL becomes https://example.com/ followed by the base name of the
output file. -/
theorem c9_identifier_sourceurl_backfilled (now : String) (analyze : Bool)
    (az : String → PermResult) (outBase : String) (doc : List (String × Json))
    (apps : List (List (String × Json))) (happs : getApps doc = some apps) :
    ∃ out sk, convert_repository now analyze az outBase doc = some (out, sk) ∧
      (∀ v, List.lookup "identifier" doc = some v → List.lookup "identifier" out = some v) ∧
      (List.lookup "identifier" doc = none →
        List.lookup "identifier" out = some (Json.str "com.converted.source")) ∧
      (∀ v, List.lookup "sourceURL" doc = some v → List.lookup "sourceURL" out = some v) ∧
      (List.lookup "sourceURL" doc = none →
        List.lookup "sourceURL" out = some (Json.str ("https://example.com/" ++ outBase))) := by
  unfold convert_repository
  rw [happs]
  dsimp only
  set d1 := setKey doc "apps" (Json.arr (convertApps now analyze az apps).1) with hd1def
  have hid1 : List.lookup "identifier" d1 = List.lookup "identifier" doc := by
    rw [hd1def]; exact lookup_setKey_ne _ _ _ _ (by decide)
  have hsc1 : List.lookup "sourceURL" d1 = List.lookup "sourceURL" doc := by
    rw [hd1def]; exact lookup_setKey_ne _ _ _ _ (by decide)
  cases hIdoc : List.lookup "identifier" doc with
  | some v0 =>
      rw [if_pos (show hasKey d1 "identifier" = true by
        rw [hasKey, hid1, hIdoc]; rfl)]
      cases hSdoc : List.lookup "sourceURL" doc with
      | some w0 =>
          rw [if_pos (show hasKey d1 "sourceURL" = true by
            rw [hasKey, hsc1, hSdoc]; rfl)]
          refine ⟨_, _, rfl, ?_, ?_, ?_, ?_⟩
          · intro v hv; rw [hid1, hIdoc]; exact hv
          · intro hx; cases hx
          · intro v hv; rw [hsc1, hSdoc]; exact hv
          · intro hx; cases hx
      | none =>
          rw [if_neg (show ¬ hasKey d1 "sourceURL" = true by
            rw [hasKey, hsc1, hSdoc]; simp)]
          refine ⟨_, _, rfl, ?_, ?_, ?_, ?_⟩
          · intro v hv
            rw [lookup_setKey_ne _ _ _ _ (by decide), hid1, hIdoc]; exact hv
          · intro hx; cases hx
          · intro v hv; cases hv
          · intro _; exact lookup_setKey_self _ _ _
  | none =>
      rw [if_neg (show ¬ hasKey d1 "identifier" = true by
        rw [hasKey, hid1, hIdoc]; simp)]
      have hsc2 : List.lookup "sourceURL"
          (setKey d1 "identifier" (Json.str "com.converted.source")) =
          List.lookup "sourceURL" doc := by
        rw [lookup_setKey_ne _ _ _ _ (by decide)]; exact hsc1
      cases hSdoc : List.lookup "sourceURL" doc with
      | some w0 =>
          rw [if_pos (show hasKey (setKey d1 "identifier" (Json.str "com.converted.source"))
              "sourceURL" = true by rw [hasKey, hsc2, hSdoc]; rfl)]
          refine ⟨_, _, rfl, ?_, ?_, ?_, ?_⟩
          · intro v hv; cases hv
          · intro _; exact lookup_setKey_self _ _ _
          · intro v hv; rw [hsc2, hSdoc]; exact hv
          · intro hx; cases hx
      | none =>
          rw [if_neg (show ¬ hasKey (setKey d1 "identifier" (Json.str "com.converted.source"))
              "sourceURL" = true by rw [hasKey, hsc2, hSdoc]; simp)]
          refine ⟨_, _, rfl, ?_, ?_, ?_, ?_⟩
          · intro v hv; cases hv
          · intro _
            rw [lookup_setKey_ne _ _ _ _ (by decide)]
            exact lookup_setKey_self _ _ _
          · intro v hv; cases hv
          · intro _; exact lookup_setKey_self _ _ _

/-- C9 witness: a catalog with no apps, identifier or sourceURL entry gets
both defaults. -/
theorem c9_witness :
    getApps [("title", Json.str "t")] = some [] ∧
    ∃ out sk, convert_repository "n" false azEmpty "cat.json" [("title", Json.str "t")] =
        some (out, sk) ∧
      (∀ v, List.lookup "identifier" [("title", Json.str "t")] = some v →
        List.lookup "identifier" out = some v) ∧
      (List.lookup "identifier" [("title", Json.str "t")] = none →
        List.lookup "identifier" out = some (Json.str "com.converted.source")) ∧
      (∀ v, List.lookup "sourceURL" [("title", Json.str "t")] = some v →
        List.lookup "sourceURL" out = some v) ∧
      (List.lookup "sourceURL" [("title", Json.str "t")] = none →
        List.lookup "sourceURL" out = some (Json.str ("https://example.com/" ++ "cat.json"))) :=
  ⟨rfl, c9_identifier_sourceurl_backfilled "n" false azEmpty "cat.json"
    [("title", Json.str "t")] [] rfl⟩

/- Claim C10. -/

/-- C10: convert_repository touches only the apps, identifier and sourceURL
entries of the document: every other top-level key keeps its value, the
apps entry becomes exactly the in-order list of successfully converted
records, and present identifier or sourceURL values are never modified.
The schema-conformance hypothesis records the domain on which the
per-record embedding agrees with the source. -/
theorem c10_frame_and_order (now : String) (analyze : Bool) (az : String → PermResult)
    (outBase : String) (doc : List (String × Json))
    (apps : List (List (String × Json)))
    (hwf : apps.all wfApp = true) (happs : getApps doc = some apps) :
    ∃ out sk, convert_repository now analyze az outBase doc = some (out, sk) ∧
      (∀ k, k ≠ "apps" → k ≠ "identifier" → k ≠ "sourceURL" →
        List.lookup k out = List.lookup k doc) ∧
      List.lookup "apps" out =
        some (Json.arr (apps.filterMap
          (fun a => (convert_app_to_altstore_format now analyze az a).map Json.obj))) ∧
      (∀ v, List.lookup "identifier" doc = some v → List.lookup "identifier" out = some v) ∧
      (∀ v, List.lookup "sourceURL" doc = some v → List.lookup "sourceURL" out = some v) := by
  unfold convert_repository
  rw [happs]
  dsimp only
  set d1 := setKey doc "apps" (Json.arr (convertApps now analyze az apps).1) with hd1def
  refine ⟨_, _, rfl, ?_, ?_, ?_, ?_⟩
  · intro k h1 h2 h3
    split
    · split
      · rw [hd1def]; exact lookup_setKey_ne _ _ _ _ h1
      · rw [lookup_setKey_ne _ _ _ _ h3, hd1def]
        exact lookup_setKey_ne _ _ _ _ h1
    · split
      · rw [lookup_setKey_ne _ _ _ _ h2, hd1def]
        exact lookup_setKey_ne _ _ _ _ h1
      · rw [lookup_setKey_ne _ _ _ _ h3, lookup_setKey_ne _ _ _ _ h2, hd1def]
        exact lookup_setKey_ne _ _ _ _ h1
  · have hbase : List.lookup "apps" d1 =
        some (Json.arr (convertApps now analyze az apps).1) := by
      rw [hd1def]; exact lookup_setKey_self _ _ _
    have happs1 : (convertApps now analyze az apps).1 =
        apps.filterMap
          (fun a => (convert_app_to_altstore_format now analyze az a).map Json.obj) := by
      rw [convertApps_eq]
    split
    · split
      · rw [hbase, happs1]
      · rw [lookup_setKey_ne _ _ _ _ (by decide), hbase, happs1]
    · split
      · rw [lookup_setKey_ne _ _ _ _ (by decide), hbase, happs1]
      · rw [lookup_setKey_ne _ _ _ _ (by decide),
          lookup_setKey_ne _ _ _ _ (by decide), hbase, happs1]
  · intro v hv
    have hid1v : List.lookup "identifier" d1 = some v := by
      rw [hd1def, lookup_setKey_ne _ _ _ _ (by decide)]; exact hv
    split
    · split
      · exact hid1v
      · rw [lookup_setKey_ne _ _ _ _ (by decide)]; exact hid1v
    · rename_i hcond
      exact absurd (by rw [hasKey, hid1v]; rfl) hcond
  · intro v hv
    have hsc1v : List.lookup "sourceURL" d1 = some v := by
      rw [hd1def, lookup_setKey_ne _ _ _ _ (by decide)]; exact hv
    split
    · split
      · exact hsc1v
      · rename_i hcond
        exact absurd (by rw [hasKey, hsc1v]; rfl) hcond
    · split
      · rw [lookup_setKey_ne _ _ _ _ (by decide)]; exact hsc1v
      · rename_i hcond
        exact absurd
          (by rw [hasKey, lookup_setKey_ne _ _ _ _ (by decide), hsc1v]; rfl) hcond

/-- C10 witness: a catalog holding one convertible record and one extra
top-level key keeps the extra key, keeps its identifier and converts the
record in place. -/
theorem c10_witness :
    ([fooApp].all wfApp = true ∧
     getApps [("title", Json.str "t"), ("identifier", Json.str "me"),
       ("apps", Json.arr [Json.obj fooApp])] = some [fooApp]) ∧
    ∃ out sk, convert_repository "n" false azEmpty "cat.json"
        [("title", Json.str "t"), ("identifier", Json.str "me"),
         ("apps", Json.arr [Json.obj fooApp])] = some (out, sk) ∧
      (∀ k, k ≠ "apps" → k ≠ "identifier" → k ≠ "sourceURL" →
        List.lookup k out = List.lookup k
          [("title", Json.str "t"), ("identifier", Json.str "me"),
           ("apps", Json.arr [Json.obj fooApp])]) ∧
      List.lookup "apps" out =
        some (Json.arr ([fooApp].filterMap
          (fun a => (convert_app_to_altstore_format "n" false azEmpty a).map Json.obj))) ∧
      (∀ v, List.lookup "identifier"
          [("title", Json.str "t"), ("identifier", Json.str "me"),
           ("apps", Json.arr [Json.obj fooApp])] = some v →
        List.lookup "identifier" out = some v) ∧
      (∀ v, List.lookup "sourceURL"
          [("title", Json.str "t"), ("identifier", Json.str "me"),
           ("apps", Json.arr [Json.obj fooApp])] = some v →
        List.lookup "sourceURL" out = some v) :=
  ⟨⟨rfl, rfl⟩,
   c10_frame_and_order "n" false azEmpty "cat.json"
     [("title", Json.str "t"), ("identifier", Json.str "me"),
      ("apps", Json.arr [Json.obj fooApp])] [fooApp] rfl rfl⟩
